import Mathlib

/-!
Verification model of the inventory CRUD server.  The canonical source is
src/unnamed/part_000 (the later revision, with the date field, zero-stock
messaging and amount parsing); src/app.js is the earlier revision of the
same handlers.  Each Express handler is embedded as a pure function from
the stored collections (items.json, transactions.json) to a response plus
the new stored collections.  Request-body fields are modelled as
Option-typed values (none = an absent field); string-valued fields keep
JavaScript truthiness (the empty string is falsy) and parseInt semantics.
-/

/-- Stored item record in the shape every handler other than creation
assumes: numeric id, string name, integer amount. -/
structure Item where
  id : Int
  name : String
  amount : Int
deriving DecidableEq, Repr

/-- Stored transaction record of the canonical revision: the date is a
caller-supplied string, empty when absent. -/
structure Txn where
  personName : String
  itemName : String
  amount : Int
  date : String
deriving DecidableEq, Repr

/-- The two persisted collections. -/
structure Store where
  items : List Item
  transactions : List Txn
deriving DecidableEq, Repr

def dItem : Item := ⟨0, "", 0⟩

def dTxn : Txn := ⟨"", "", 0, ""⟩

/-- Value of a nonempty all-digit character run. -/
def digitsVal (cs : List Char) : Option Nat :=
  if cs.isEmpty then none
  else if cs.all Char.isDigit then
    some (cs.foldl (fun a c => a * 10 + (c.toNat - 48)) 0)
  else none

/-- Model of parseInt(s, 10): skip leading whitespace, optional sign,
longest digit prefix; none when there is no digit (NaN). -/
def parseIntJS (s : String) : Option Int :=
  let cs := s.toList.dropWhile Char.isWhitespace
  let signed : Int × List Char :=
    match cs with
    | '-' :: t => (-1, t)
    | '+' :: t => (1, t)
    | t => (1, t)
  match digitsVal (signed.2.takeWhile Char.isDigit) with
  | none => none
  | some v => some (signed.1 * (v : Int))

/-- Model of Array.prototype.findIndex: index of the first match. -/
def findIndexJS (p : α → Bool) : List α → Option Nat
  | [] => none
  | x :: xs => if p x then some 0 else (findIndexJS p xs).map (fun i => i + 1)

/-- JavaScript truthiness of an optional string field. -/
def optTruthy (o : Option String) : Bool :=
  match o with
  | some s => decide (s ≠ "")
  | none => false

/-- Model of the personName defaulting: if (!personName) personName = "System". -/
def resolvePerson (o : Option String) : String :=
  match o with
  | some s => if s = "" then "System" else s
  | none => "System"

/-- Partial request body for PUT /items/:name; the object spread merges the
supplied fields over the existing record, the id included. -/
structure ItemPatch where
  id : Option Int
  name : Option String
  amount : Option Int
deriving DecidableEq, Repr

/-- The spread merge of the update handler. -/
def mergeItem (it : Item) (p : ItemPatch) : Item :=
  ⟨p.id.getD it.id, p.name.getD it.name, p.amount.getD it.amount⟩

inductive ItemRes where
  | err (status : Nat) (msg : String)
  | ok (it : Item)
deriving DecidableEq, Repr

/-- POST /items: id is Date.now() at the time of the call; name and amount
are copied from the body with no validation; respond 201 with the record. -/
def createItemH (now : Int) (name : String) (amount : Int) (s : Store) : (Nat × Item) × Store :=
  ((201, ⟨now, name, amount⟩), ⟨s.items ++ [⟨now, name, amount⟩], s.transactions⟩)

/-- PUT /items/:name: first matching item is merged with the body; 404 when
no item matches. -/
def updateItemH (name : String) (p : ItemPatch) (s : Store) : ItemRes × Store :=
  match findIndexJS (fun it => decide (it.name = name)) s.items with
  | none => (.err 404 "Item not found", s)
  | some i =>
    (.ok (mergeItem (s.items.getD i dItem) p),
     ⟨s.items.set i (mergeItem (s.items.getD i dItem) p), s.transactions⟩)

/-- DELETE /items/:name: keep the items whose name differs; always 204. -/
def deleteItemH (name : String) (s : Store) : Nat × Store :=
  (204, ⟨s.items.filter (fun it => decide (it.name ≠ name)), s.transactions⟩)

/-- Request body of POST /take-item (all fields arrive untyped; the amount
is modelled as its string form, on which parseInt acts). -/
structure TakeBody where
  personName : Option String
  itemName : Option String
  amount : Option String
  date : Option String
deriving DecidableEq, Repr

inductive TakeRes where
  | err (status : Nat) (msg : String)
  | ok (message : String) (remaining : Int)
deriving DecidableEq, Repr

/-- Outcome of the take-item handler up to its first persisted write:
either a rejection before any write, or the pair of writes it will
perform (new items array, appended ledger entry) plus the response. -/
inductive TakeOutcome where
  | reject (r : TakeRes)
  | commit (newItems : List Item) (entry : Txn) (r : TakeRes)
deriving DecidableEq, Repr

/-- The take-item handler's validation and computation on the items
snapshot it read, in the order of the source: presence check, first-match
lookup, parseInt check, stock check, then decrement and response. -/
def takeStep (items : List Item) (b : TakeBody) : TakeOutcome :=
  if optTruthy b.itemName && optTruthy b.amount then
    let personName := resolvePerson b.personName
    let itemName := b.itemName.getD ""
    match findIndexJS (fun it => decide (it.name = itemName)) items with
    | none => .reject (.err 404 "Item not found")
    | some idx =>
      match parseIntJS (b.amount.getD "") with
      | none => .reject (.err 400 "Invalid amount")
      | some n =>
        if n ≤ 0 then .reject (.err 400 "Invalid amount")
        else
          let item := items.getD idx dItem
          if item.amount < n then .reject (.err 400 "Insufficient amount")
          else
            let remaining := item.amount - n
            let newItems := items.set idx ⟨item.id, item.name, remaining⟩
            let entry : Txn := ⟨personName, itemName, n, b.date.getD ""⟩
            if remaining = 0 then
              .commit newItems entry
                (.ok (personName ++ " took " ++ toString n ++ " " ++ item.name ++
                      "(s). " ++ item.name ++ " is now out of stock!") remaining)
            else
              .commit newItems entry
                (.ok (personName ++ " took " ++ toString n ++ " " ++ item.name ++ "(s)")
                  remaining)
  else .reject (.err 400 "Missing required fields")

/-- POST /take-item with both writes succeeding: rejections change nothing;
a commit persists the decremented items and appends the ledger entry. -/
def takeItem (s : Store) (b : TakeBody) : TakeRes × Store :=
  match takeStep s.items b with
  | .reject r => (r, s)
  | .commit its e r => (r, ⟨its, s.transactions ++ [e]⟩)

/-- POST /take-item when the ledger write (the second writeFile) throws:
the items write has already been persisted, control reaches the catch
block, and the handler answers 500 with the transactions file unchanged. -/
def takeItemLedgerFail (s : Store) (b : TakeBody) : TakeRes × Store :=
  match takeStep s.items b with
  | .reject r => (r, s)
  | .commit its _ _ => (.err 500 "Error processing transaction", ⟨its, s.transactions⟩)

/-- Interleaved execution of two concurrent take-item requests under the
schedule read1, read2, write1, write2 (every fs call in the handler is an
await point and there is no lock, so both handlers can read the same
pre-decrement snapshot before either write; the second items write then
overwrites the first).  The ledger appends happen after the items writes
and are kept in order. -/
def concurrentTakes (s : Store) (b1 b2 : TakeBody) : TakeRes × TakeRes × Store :=
  match takeStep s.items b1, takeStep s.items b2 with
  | .commit _ e1 r1, .commit its2 e2 r2 => (r1, r2, ⟨its2, s.transactions ++ [e1, e2]⟩)
  | .commit its1 e1 r1, .reject r2 => (r1, r2, ⟨its1, s.transactions ++ [e1]⟩)
  | .reject r1, .commit its2 e2 r2 => (r1, r2, ⟨its2, s.transactions ++ [e2]⟩)
  | .reject r1, .reject r2 => (r1, r2, s)

/-- Partial request body for PUT /transactions/:index. -/
structure TxnPatch where
  personName : Option String
  itemName : Option String
  amount : Option Int
  date : Option String
deriving DecidableEq, Repr

/-- The spread merge of the transaction update handler. -/
def mergeTxn (t : Txn) (p : TxnPatch) : Txn :=
  ⟨p.personName.getD t.personName, p.itemName.getD t.itemName,
   p.amount.getD t.amount, p.date.getD t.date⟩

/-- PUT /transactions/:index for an integer index: 404 when index is below 0 or at
index ≥ length, else merge the body into the entry at that position. -/
def updateTxnH (l : List Txn) (i : Int) (p : TxnPatch) : Except (Nat × String) (Txn × List Txn) :=
  if i < 0 ∨ (l.length : Int) ≤ i then .error (404, "Transaction not found")
  else .ok (mergeTxn (l.getD i.toNat dTxn) p, l.set i.toNat (mergeTxn (l.getD i.toNat dTxn) p))

/-- DELETE /transactions/:index for an integer index: 404 under the same
bounds check, else splice out the entry at that position. -/
def deleteTxnH (l : List Txn) (i : Int) : Except (Nat × String) (List Txn) :=
  if i < 0 ∨ (l.length : Int) ≤ i then .error (404, "Transaction not found")
  else .ok (l.eraseIdx i.toNat)

/-- States reachable from the empty store by committed operations of the
API: item create, update, delete, take-item, and the two ledger
corrections. -/
inductive Reachable : Store → Prop where
  | init : Reachable ⟨[], []⟩
  | create (now : Int) (name : String) (amount : Int) (s : Store) :
      Reachable s → Reachable (createItemH now name amount s).2
  | update (name : String) (p : ItemPatch) (s : Store) :
      Reachable s → Reachable (updateItemH name p s).2
  | idelete (name : String) (s : Store) :
      Reachable s → Reachable (deleteItemH name s).2
  | take (b : TakeBody) (s : Store) :
      Reachable s → Reachable (takeItem s b).2
  | txnUpdate (i : Int) (p : TxnPatch) (s : Store) :
      Reachable s →
      Reachable ⟨s.items,
        match updateTxnH s.transactions i p with
        | .ok r => r.2
        | .error _ => s.transactions⟩
  | txnDelete (i : Int) (s : Store) :
      Reachable s →
      Reachable ⟨s.items,
        match deleteTxnH s.transactions i with
        | .ok r => r
        | .error _ => s.transactions⟩

/-- Raw request body of POST /items: both fields may be absent, and the
amount may be any number the client sends, negative or fractional. -/
structure CreateBody where
  name : Option String
  amount : Option Rat
deriving DecidableEq, Repr

/-- The record POST /items builds verbatim from the body. -/
structure RawItem where
  id : Int
  name : Option String
  amount : Option Rat
deriving DecidableEq, Repr

/-- POST /items on the raw body: copy the fields with no validation,
append, respond 201 with the record. -/
def createRawH (now : Int) (b : CreateBody) (items : List RawItem) : (Nat × RawItem) × List RawItem :=
  ((201, ⟨now, b.name, b.amount⟩), items ++ [⟨now, b.name, b.amount⟩])

theorem eraseIdx_as_take_drop (l : List α) (n : Nat) :
    l.eraseIdx n = l.take n ++ l.drop (n + 1) := by
  induction l generalizing n with
  | nil => simp [List.eraseIdx]
  | cons x xs ih =>
    cases n with
    | zero => simp [List.eraseIdx]
    | succ m => simp [List.eraseIdx, ih]

theorem map_set_same {f : α → β} (l : List α) (i : Nat) (v : α) (d : α)
    (h : f v = f (l.getD i d)) : (l.set i v).map f = l.map f := by
  induction l generalizing i with
  | nil => simp
  | cons x xs ih =>
    cases i with
    | zero =>
      rw [List.set_cons_zero, List.map_cons, List.map_cons]
      rw [List.getD_cons_zero] at h
      rw [h]
    | succ m =>
      rw [List.set_cons_succ, List.map_cons, List.map_cons]
      rw [List.getD_cons_succ] at h
      rw [ih m h]

theorem takeStep_commit_inv {items : List Item} {b : TakeBody} {its : List Item} {e : Txn} {r : TakeRes}
    (h : takeStep items b = .commit its e r) :
    ∃ idx n, findIndexJS (fun it => decide (it.name = b.itemName.getD "")) items = some idx ∧
      parseIntJS (b.amount.getD "") = some n ∧ 0 < n ∧
      ¬ (items.getD idx dItem).amount < n ∧
      its = items.set idx ⟨(items.getD idx dItem).id, (items.getD idx dItem).name,
                           (items.getD idx dItem).amount - n⟩ ∧
      e = ⟨resolvePerson b.personName, b.itemName.getD "", n, b.date.getD ""⟩ := by
  simp only [takeStep] at h
  repeat' split at h
  all_goals simp only [TakeOutcome.commit.injEq, reduceCtorEq] at h
  all_goals obtain ⟨h1, h2, h3⟩ := h
  all_goals subst h1
  all_goals subst h2
  all_goals exact ⟨_, _, by assumption, by assumption, by omega, by assumption, rfl, rfl⟩

/-- C1: the two persisted writes of take-item are not one logical unit.  At
a state with item w of stock 5 and a request taking 3 that passes all four
validations, the normal path decrements to 2 and appends the ledger entry,
but when the ledger write fails the handler keeps the persisted decrement
(stock 2, empty ledger, no rollback to 5) and reports 500.  The error is
reported, but the compensating action the claim requires does not exist. -/
theorem c1_ledger_failure_keeps_decrement :
    takeItem ⟨[⟨1, "w", 5⟩], []⟩ ⟨some "Alice", some "w", some "3", none⟩ =
      (.ok "Alice took 3 w(s)" 2, ⟨[⟨1, "w", 2⟩], [⟨"Alice", "w", 3, ""⟩]⟩) ∧
    takeItemLedgerFail ⟨[⟨1, "w", 5⟩], []⟩ ⟨some "Alice", some "w", some "3", none⟩ =
      (.err 500 "Error processing transaction", ⟨[⟨1, "w", 2⟩], []⟩) ∧
    (takeItemLedgerFail ⟨[⟨1, "w", 5⟩], []⟩ ⟨some "Alice", some "w", some "3", none⟩).2.items ≠
      (⟨[⟨1, "w", 5⟩], []⟩ : Store).items :=
  ⟨rfl, rfl, by
    intro hc
    have hc2 : ([⟨1, "w", 2⟩] : List Item) = [⟨1, "w", 5⟩] := hc
    simp at hc2⟩

/-- C2 (amended): take-item preserves non-negativity of every item amount —
its stock guard makes the decremented amount old minus n with n at most
old — but creation and update validate nothing, so a negative amount is
reachable (see the counterexample). -/
theorem c2_take_preserves_nonneg (s : Store) (b : TakeBody)
    (h : ∀ i ∈ s.items, 0 ≤ i.amount) :
    ∀ i ∈ ((takeItem s b).2).items, 0 ≤ i.amount := by
  intro i hi
  unfold takeItem at hi
  cases hst : takeStep s.items b with
  | reject r0 =>
    rw [hst] at hi
    exact h i hi
  | commit its e r0 =>
    rw [hst] at hi
    obtain ⟨idx, n, hfind, hparse, hn, hamt, hits, hee⟩ := takeStep_commit_inv hst
    subst hits
    rcases List.mem_or_eq_of_mem_set hi with hmem | heq
    · exact h i hmem
    · subst heq
      show 0 ≤ (s.items.getD idx dItem).amount - n
      omega

/-- C2 witness: concrete instance of the preservation theorem. -/
theorem c2_witness :
    (∀ i ∈ (Store.mk [Item.mk 1 "w" 5] []).items, 0 ≤ i.amount) ∧
    (∀ i ∈ ((takeItem (Store.mk [Item.mk 1 "w" 5] [])
        (TakeBody.mk (some "Alice") (some "w") (some "3") none)).2).items, 0 ≤ i.amount) :=
  ⟨by decide, c2_take_preserves_nonneg _ _ (by decide)⟩

/-- C2 counterexample: the unvalidated create handler makes a state with a
negative amount reachable from the empty store. -/
theorem c2_counterexample :
    Reachable ⟨[⟨1, "x", -1⟩], []⟩ ∧
    (⟨1, "x", -1⟩ : Item) ∈ (⟨[⟨1, "x", -1⟩], []⟩ : Store).items ∧
    (⟨1, "x", -1⟩ : Item).amount < 0 :=
  ⟨Reachable.create 1 "x" (-1) ⟨[], []⟩ Reachable.init, by decide, by decide⟩

/-- C3 (amended): after the presence check the handler looks the item up
before parsing the amount, so a truthy request whose name matches nothing
gets NotFound 404 whatever its amount, and the invalid-amount 400 is only
reachable once a matching item exists. -/
theorem c3_lookup_precedes_parse (s : Store) (b : TakeBody)
    (h1 : optTruthy b.itemName = true) (h2 : optTruthy b.amount = true) :
    (findIndexJS (fun it => decide (it.name = b.itemName.getD "")) s.items = none →
      takeItem s b = (.err 404 "Item not found", s)) ∧
    (∀ idx, findIndexJS (fun it => decide (it.name = b.itemName.getD "")) s.items = some idx →
      parseIntJS (b.amount.getD "") = none →
      takeItem s b = (.err 400 "Invalid amount", s)) := by
  constructor
  · intro hf
    unfold takeItem
    have hstep : takeStep s.items b = .reject (.err 404 "Item not found") := by
      simp only [takeStep, h1, h2, Bool.and_self, if_true, hf]
    rw [hstep]
  · intro idx hf hp
    unfold takeItem
    have hstep : takeStep s.items b = .reject (.err 400 "Invalid amount") := by
      simp only [takeStep, h1, h2, Bool.and_self, if_true, hf, hp]
    rw [hstep]

/-- C3 witness: concrete instance of the lookup-before-parse theorem. -/
theorem c3_witness :
    takeItem ⟨[⟨1, "w", 5⟩], []⟩ ⟨none, some "ghost", some "abc", none⟩ =
      (.err 404 "Item not found", ⟨[⟨1, "w", 5⟩], []⟩) :=
  (c3_lookup_precedes_parse ⟨[⟨1, "w", 5⟩], []⟩ ⟨none, some "ghost", some "abc", none⟩
    (by decide) (by decide)).1 (by rfl)

/-- C3 counterexample: a request whose amount fails to parse and whose
name matches no item yields NotFound 404, not the claimed
invalid-amount 400. -/
theorem c3_counterexample :
    takeItem ⟨[], []⟩ ⟨none, some "ghost", some "abc", none⟩ =
      (.err 404 "Item not found", ⟨[], []⟩) ∧
    (takeItem ⟨[], []⟩ ⟨none, some "ghost", some "abc", none⟩).1 ≠ .err 400 "Invalid amount" := by
  refine ⟨rfl, ?_⟩
  intro hc
  have hc2 : TakeRes.err 404 "Item not found" = TakeRes.err 400 "Invalid amount" := hc
  simp at hc2

/-- C4: the load-then-save race does occur.  With stock 5 and two
concurrent takes of 4 under the interleaving read1, read2, write1,
write2 — permitted by the handler's await points, with no lock — both
callers are told success; the ledger records 8 taken, which exceeds the
starting stock of 5, and one decrement is silently lost (final stock 1). -/
theorem c4_lost_update :
    concurrentTakes ⟨[⟨1, "w", 5⟩], []⟩ ⟨some "Alice", some "w", some "4", none⟩
        ⟨some "Bob", some "w", some "4", none⟩ =
      (.ok "Alice took 4 w(s)" 1, .ok "Bob took 4 w(s)" 1,
       ⟨[⟨1, "w", 1⟩], [⟨"Alice", "w", 4, ""⟩, ⟨"Bob", "w", 4, ""⟩]⟩) ∧
    (((concurrentTakes ⟨[⟨1, "w", 5⟩], []⟩ ⟨some "Alice", some "w", some "4", none⟩
        ⟨some "Bob", some "w", some "4", none⟩).2.2.transactions.map Txn.amount).sum >
      ((⟨[⟨1, "w", 5⟩], []⟩ : Store).items.map Item.amount).sum) := by
  refine ⟨rfl, ?_⟩
  show ([(4 : Int), 4]).sum > ([(5 : Int)]).sum
  simp

/-- C5: a validated take-item request asking for more than the matched
item's stock fails with 400 Insufficient amount and returns the store
unchanged — both collections untouched, since the handler returns before
either write. -/
theorem c5_insufficient (s : Store) (b : TakeBody) (idx : Nat) (n : Int)
    (h1 : optTruthy b.itemName = true) (h2 : optTruthy b.amount = true)
    (h3 : findIndexJS (fun it => decide (it.name = b.itemName.getD "")) s.items = some idx)
    (h4 : parseIntJS (b.amount.getD "") = some n) (h5 : 0 < n)
    (h6 : (s.items.getD idx dItem).amount < n) :
    takeItem s b = (.err 400 "Insufficient amount", s) := by
  unfold takeItem
  have hstep : takeStep s.items b = .reject (.err 400 "Insufficient amount") := by
    simp only [takeStep, h1, h2, Bool.and_self, if_true, h3, h4]
    rw [if_neg (by omega : ¬ n ≤ 0), if_pos h6]
  rw [hstep]

/-- C5 witness: concrete instance of the insufficient-stock theorem. -/
theorem c5_witness :
    takeItem ⟨[⟨1, "w", 5⟩], []⟩ ⟨none, some "w", some "9", none⟩ =
      (.err 400 "Insufficient amount", ⟨[⟨1, "w", 5⟩], []⟩) :=
  c5_insufficient ⟨[⟨1, "w", 5⟩], []⟩ ⟨none, some "w", some "9", none⟩ 0 9
    (by decide) (by decide) (by rfl) (by rfl) (by decide) (by decide)

/-- C7: transaction update and delete answer 404 exactly when the integer
index is out of bounds; in bounds, update merges the body into the entry
at that position leaving every other position unchanged, and delete
removes exactly that entry. -/
theorem c7_txn_bounds (l : List Txn) (i : Int) (p : TxnPatch) :
    ((i < 0 ∨ (l.length : Int) ≤ i) ↔ updateTxnH l i p = .error (404, "Transaction not found")) ∧
    ((i < 0 ∨ (l.length : Int) ≤ i) ↔ deleteTxnH l i = .error (404, "Transaction not found")) ∧
    (¬ (i < 0 ∨ (l.length : Int) ≤ i) →
      updateTxnH l i p = .ok (mergeTxn (l.getD i.toNat dTxn) p,
        l.set i.toNat (mergeTxn (l.getD i.toNat dTxn) p)) ∧
      deleteTxnH l i = .ok (l.take i.toNat ++ l.drop (i.toNat + 1)) ∧
      (∀ j, j ≠ i.toNat →
        (l.set i.toNat (mergeTxn (l.getD i.toNat dTxn) p))[j]? = l[j]?)) := by
  by_cases hb : i < 0 ∨ (l.length : Int) ≤ i
  · refine ⟨⟨fun _ => ?_, fun _ => hb⟩, ⟨fun _ => ?_, fun _ => hb⟩, fun hc => absurd hb hc⟩
    · unfold updateTxnH
      rw [if_pos hb]
    · unfold deleteTxnH
      rw [if_pos hb]
  · refine ⟨⟨fun hc => absurd hc hb, fun he => ?_⟩, ⟨fun hc => absurd hc hb, fun he => ?_⟩,
      fun _ => ⟨?_, ?_, ?_⟩⟩
    · unfold updateTxnH at he
      rw [if_neg hb] at he
      exact absurd he (by simp)
    · unfold deleteTxnH at he
      rw [if_neg hb] at he
      exact absurd he (by simp)
    · unfold updateTxnH
      rw [if_neg hb]
    · unfold deleteTxnH
      rw [if_neg hb, eraseIdx_as_take_drop]
    · intro j hj
      exact List.getElem?_set_ne (fun he => hj he.symm)

/-- C7 witness: concrete instances of the bounds theorem, in and out of
bounds. -/
theorem c7_witness :
    updateTxnH [⟨"p", "i", 1, "d"⟩, ⟨"q", "j", 2, "e"⟩] 0 ⟨none, none, some 7, none⟩ =
      .ok (⟨"p", "i", 7, "d"⟩, [⟨"p", "i", 7, "d"⟩, ⟨"q", "j", 2, "e"⟩]) ∧
    deleteTxnH [⟨"p", "i", 1, "d"⟩, ⟨"q", "j", 2, "e"⟩] 0 = .ok [⟨"q", "j", 2, "e"⟩] ∧
    updateTxnH [⟨"p", "i", 1, "d"⟩, ⟨"q", "j", 2, "e"⟩] 2 ⟨none, none, some 7, none⟩ =
      .error (404, "Transaction not found") := by
  refine ⟨?_, ?_, ?_⟩
  · exact ((c7_txn_bounds [⟨"p", "i", 1, "d"⟩, ⟨"q", "j", 2, "e"⟩] 0
      ⟨none, none, some 7, none⟩).2.2 (by decide)).1
  · exact ((c7_txn_bounds [⟨"p", "i", 1, "d"⟩, ⟨"q", "j", 2, "e"⟩] 0
      ⟨none, none, some 7, none⟩).2.2 (by decide)).2.1
  · exact (c7_txn_bounds [⟨"p", "i", 1, "d"⟩, ⟨"q", "j", 2, "e"⟩] 2
      ⟨none, none, some 7, none⟩).1.mp (by decide)

/-- C8: item delete answers 204 always, is idempotent on the stored state,
and with no matching name leaves the store unchanged. -/
theorem c8_delete_idempotent (name : String) (s : Store) :
    (deleteItemH name s).1 = 204 ∧
    (deleteItemH name ((deleteItemH name s).2)).2 = (deleteItemH name s).2 ∧
    ((∀ i ∈ s.items, i.name ≠ name) → (deleteItemH name s).2 = s) := by
  refine ⟨rfl, ?_, ?_⟩
  · unfold deleteItemH
    simp only [List.filter_filter, Bool.and_self]
  · intro hnone
    unfold deleteItemH
    have hf : s.items.filter (fun it => decide (it.name ≠ name)) = s.items :=
      List.filter_eq_self.mpr (fun a ha => by simpa using hnone a ha)
    rw [hf]

/-- C8 witness: concrete instance of the idempotence theorem. -/
theorem c8_witness :
    (deleteItemH "x" ⟨[⟨1, "w", 5⟩], []⟩).1 = 204 ∧
    (deleteItemH "x" ((deleteItemH "x" ⟨[⟨1, "w", 5⟩], []⟩).2)).2 =
      (deleteItemH "x" ⟨[⟨1, "w", 5⟩], []⟩).2 ∧
    (deleteItemH "x" ⟨[⟨1, "w", 5⟩], []⟩).2 = ⟨[⟨1, "w", 5⟩], []⟩ :=
  ⟨(c8_delete_idempotent "x" ⟨[⟨1, "w", 5⟩], []⟩).1,
   (c8_delete_idempotent "x" ⟨[⟨1, "w", 5⟩], []⟩).2.1,
   (c8_delete_idempotent "x" ⟨[⟨1, "w", 5⟩], []⟩).2.2 (by decide)⟩

/-- C9 (amended): ids are distinct when the creation timestamps differ, and
update without an id field in its body, as well as take-item, preserve
every stored id; but ids are just Date.now(), so same-millisecond creations
collide, and an update body carrying an id overwrites it (see the
counterexample). -/
theorem c9_id_preservation (now1 now2 : Int) (n1 n2 : String) (a1 a2 : Int) (s1 s2 : Store)
    (name : String) (p : ItemPatch) (s : Store) (b : TakeBody)
    (hne : now1 ≠ now2) (hid : p.id = none) :
    (createItemH now1 n1 a1 s1).1.2.id ≠ (createItemH now2 n2 a2 s2).1.2.id ∧
    ((updateItemH name p s).2).items.map Item.id = s.items.map Item.id ∧
    ((takeItem s b).2).items.map Item.id = s.items.map Item.id := by
  refine ⟨hne, ?_, ?_⟩
  · unfold updateItemH
    cases hf : findIndexJS (fun it => decide (it.name = name)) s.items with
    | none => rfl
    | some i =>
      show (s.items.set i (mergeItem (s.items.getD i dItem) p)).map Item.id = s.items.map Item.id
      refine map_set_same s.items i _ dItem ?_
      show (mergeItem (s.items.getD i dItem) p).id = (s.items.getD i dItem).id
      unfold mergeItem
      rw [hid]
      rfl
  · unfold takeItem
    cases hst : takeStep s.items b with
    | reject r0 => rfl
    | commit its e r0 =>
      obtain ⟨idx, n, hfind, hparse, hn, hamt, hits, hee⟩ := takeStep_commit_inv hst
      subst hits
      show (s.items.set idx ⟨(s.items.getD idx dItem).id, (s.items.getD idx dItem).name,
        (s.items.getD idx dItem).amount - n⟩).map Item.id = s.items.map Item.id
      exact map_set_same s.items idx _ dItem rfl

/-- C9 witness: concrete instance of the id-preservation theorem. -/
theorem c9_witness :
    (createItemH 5 "a" 1 ⟨[], []⟩).1.2.id ≠ (createItemH 6 "b" 1 ⟨[], []⟩).1.2.id ∧
    ((updateItemH "w" ⟨none, none, some 9⟩ ⟨[⟨1, "w", 5⟩], []⟩).2).items.map Item.id =
      (⟨[⟨1, "w", 5⟩], []⟩ : Store).items.map Item.id ∧
    ((takeItem ⟨[⟨1, "w", 5⟩], []⟩ ⟨none, some "w", some "3", none⟩).2).items.map Item.id =
      (⟨[⟨1, "w", 5⟩], []⟩ : Store).items.map Item.id :=
  c9_id_preservation 5 6 "a" "b" 1 1 ⟨[], []⟩ ⟨[], []⟩ "w" ⟨none, none, some 9⟩
    ⟨[⟨1, "w", 5⟩], []⟩ ⟨none, some "w", some "3", none⟩ (by decide) rfl

/-- C9 counterexample: two creations at the same Date.now() millisecond get
the same id, and an update whose body carries an id changes the stored id
from 5 to 9 — ids neither collision-free nor immutable. -/
theorem c9_counterexample :
    (createItemH 5 "a" 1 ⟨[], []⟩).1.2.id = (createItemH 5 "b" 1 ⟨[], []⟩).1.2.id ∧
    ((updateItemH "a" ⟨some 9, none, none⟩ ⟨[⟨5, "a", 1⟩], []⟩).2).items.map Item.id = [9] ∧
    (updateItemH "a" ⟨some 9, none, none⟩ ⟨[⟨5, "a", 1⟩], []⟩).1 = .ok ⟨9, "a", 1⟩ :=
  ⟨rfl, rfl, rfl⟩

/-- C10: item creation validates nothing — for every body, missing fields
and negative or fractional amounts included, the created record carries
the body's fields verbatim with id Date.now(), is appended, and the
response is 201 with that record. -/
theorem c10_create_no_validation (now : Int) (b : CreateBody) (items : List RawItem) :
    (createRawH now b items).1.1 = 201 ∧
    (createRawH now b items).1.2.id = now ∧
    (createRawH now b items).1.2.name = b.name ∧
    (createRawH now b items).1.2.amount = b.amount ∧
    (createRawH now b items).2 = items ++ [(createRawH now b items).1.2] :=
  ⟨rfl, rfl, rfl, rfl, rfl⟩
